import Mathlib

/-!
Verification of the resilient GraphQL access layer of the `gofynd/helix`
storefront: the TTL cache (`AppCache`, `CacheKeyBuilder`), the circuit
breaker and retry policy of the Apollo pipeline, and the error
classification mapper.

The TypeScript sources are shallowly embedded:
* JS `number` values used as wall-clock times and TTLs are embedded as `ℤ`
  (exact arithmetic; the source never relies on float rounding).
* A JS value that may be `undefined` is embedded as `Option α`, `none`
  standing for `undefined`.
* The backing `lru-cache` store is embedded as an association list keyed by
  strings (an ideal map: capacity eviction and the library's own wall-clock
  expiry are not modelled; all claims below concern the application-level
  logic layered on top of it).
* `Promise` results are embedded as `Except`: `Except.error` is a rejected
  promise, `Except.ok` a resolved one.
-/

namespace Helix

/-- A cache entry, from `interface CacheEntry` in the cache module:
`{ data, createdAt, ttl, hits }`.  `data : Option α` models a JS value that
may itself be `undefined`. -/
structure CacheEntry (α : Type) where
  data : Option α
  createdAt : ℤ
  ttl : ℤ
  hits : Nat
  deriving Repr, DecidableEq

/-- The mutable state of an `AppCache` instance: the backing store (an
association list standing for the `lru-cache` map) plus the stats counters
`hits/misses/sets/deletes` from `interface CacheStats`. -/
structure CacheState (α : Type) where
  entries : List (String × CacheEntry α)
  hits : Nat
  misses : Nat
  sets : Nat
  deletes : Nat
  deriving Repr, DecidableEq

namespace CacheState

/-- The empty cache with zeroed counters. -/
def empty (α : Type) : CacheState α :=
  { entries := [], hits := 0, misses := 0, sets := 0, deletes := 0 }

end CacheState

/-- Removes every binding of `key` from the store (models `cache.delete`). -/
def eraseKey {α : Type} (key : String) :
    List (String × CacheEntry α) → List (String × CacheEntry α)
  | [] => []
  | (k, e) :: rest =>
      if k = key then eraseKey key rest else (k, e) :: eraseKey key rest

/-- Overwriting insertion into the store (models `cache.set`). -/
def insertKey {α : Type} (key : String) (e : CacheEntry α)
    (l : List (String × CacheEntry α)) : List (String × CacheEntry α) :=
  (key, e) :: eraseKey key l

/-- The expiry test used by both `get` and `has`:
`now - entry.createdAt > entry.ttl * 1000`. -/
def entryExpired {α : Type} (now : ℤ) (e : CacheEntry α) : Bool :=
  decide (now - e.createdAt > e.ttl * 1000)

namespace AppCache

/-- `AppCache.get`, embedded from the source: looks the key up, lazily
deletes and counts a miss when the entry's age exceeds its TTL, otherwise
bumps the entry's hit counter and the `hits` stat and returns the stored
data.  The returned `Option α` is the JS return value (`none` =
`undefined`, which is what both a miss and a stored `undefined` yield). -/
def get {α : Type} (now : ℤ) (key : String) (s : CacheState α) :
    Option α × CacheState α :=
  match s.entries.lookup key with
  | some e =>
      if entryExpired now e then
        (none, { s with entries := eraseKey key s.entries,
                        misses := s.misses + 1 })
      else
        (e.data, { s with entries := insertKey key { e with hits := e.hits + 1 } s.entries,
                          hits := s.hits + 1 })
  | none => (none, { s with misses := s.misses + 1 })

/-- `AppCache.set`, embedded from the source.  `ttlSeconds : Option ℤ`
models the optional argument; the source computes
`const ttl = ttlSeconds || Config.cacheTtl`, so a missing argument *and* a
supplied `0` (JS falsy) both fall back to the process-wide default
`defaultTtl` (= `Config.cacheTtl`). -/
def set {α : Type} (defaultTtl : ℤ) (now : ℤ) (key : String) (value : Option α)
    (ttlSeconds : Option ℤ) (s : CacheState α) : CacheState α :=
  let ttl : ℤ :=
    match ttlSeconds with
    | some t => if t = 0 then defaultTtl else t
    | none => defaultTtl
  { s with
    entries := insertKey key { data := value, createdAt := now, ttl := ttl, hits := 0 } s.entries,
    sets := s.sets + 1 }

/-- `AppCache.has`, embedded from the source: present and not expired;
expired entries are deleted on the spot; no stats counter is touched. -/
def has {α : Type} (now : ℤ) (key : String) (s : CacheState α) :
    Bool × CacheState α :=
  match s.entries.lookup key with
  | none => (false, s)
  | some e =>
      if entryExpired now e then
        (false, { s with entries := eraseKey key s.entries })
      else
        (true, s)

/-- `AppCache.delete`, embedded from the source. -/
def del {α : Type} (key : String) (s : CacheState α) : Bool × CacheState α :=
  match s.entries.lookup key with
  | none => (false, s)
  | some _ =>
      (true, { s with entries := eraseKey key s.entries,
                      deletes := s.deletes + 1 })

/-- The result of one `AppCache.getOrSet` call: the promise outcome, the
cache state afterwards, and whether the factory was invoked. -/
structure GetOrSetResult (α ε : Type) where
  result : Except ε (Option α)
  state : CacheState α
  invoked : Bool
  deriving Repr

/-- `AppCache.getOrSet`, embedded from the source.  The factory is a
one-shot promise outcome `Except ε (Option α)` (`none` = it resolved to
`undefined`); `invoked` records whether it was awaited.  `nowGet` is the
clock when `get` runs, `nowSet` the (possibly later) clock when `set` runs
after the factory resolves.  The source guards the hit path with
`cached !== undefined`, which is `Option.isSome` here. -/
def getOrSet {α ε : Type} (defaultTtl : ℤ) (nowGet nowSet : ℤ) (key : String)
    (factory : Except ε (Option α)) (ttlSeconds : Option ℤ)
    (s : CacheState α) : GetOrSetResult α ε :=
  let r := get nowGet key s
  if (r.1).isSome then
    { result := Except.ok r.1, state := r.2, invoked := false }
  else
    match factory with
    | Except.ok v =>
        { result := Except.ok v,
          state := set defaultTtl nowSet key v ttlSeconds r.2,
          invoked := true }
    | Except.error e =>
        { result := Except.error e, state := r.2, invoked := true }

/-- No live entry for `key` at time `now`: the key is absent, or its entry
has outlived its TTL. -/
def noLiveEntry {α : Type} (now : ℤ) (key : String) (s : CacheState α) : Prop :=
  s.entries.lookup key = none ∨
    ∃ e, s.entries.lookup key = some e ∧ now - e.createdAt > e.ttl * 1000

end AppCache

/-! ### Circuit breaker

Embedded from `class CircuitBreaker` in the Apollo client module.  The two
revisions in the repository differ only in the constants
(`failureThreshold` 5 vs 10, `resetTimeoutMs` 60000 vs 30000), so the
machine is parameterised by a `CBConfig`. -/

/-- The breaker's three states. -/
inductive CBMode where
  | closed
  | open
  | halfOpen
  deriving Repr, DecidableEq

/-- The breaker's mutable fields: `failures`, `lastFailure`, `state`. -/
structure CBState where
  failures : Nat
  lastFailure : ℤ
  mode : CBMode
  deriving Repr, DecidableEq

/-- The breaker's constants `failureThreshold` and `resetTimeoutMs`. -/
structure CBConfig where
  failureThreshold : Nat
  resetTimeoutMs : ℤ
  deriving Repr, DecidableEq

namespace CircuitBreaker

/-- The constants of the `src/lib/apollo.ts` revision. -/
def cfgMain : CBConfig := { failureThreshold := 5, resetTimeoutMs := 60000 }

/-- The initial breaker: `failures = 0`, `lastFailure = 0`, state `CLOSED`. -/
def init : CBState := { failures := 0, lastFailure := 0, mode := CBMode.closed }

/-- `CircuitBreaker.canExecute`, embedded from the source.  Returns the
boolean result and the state afterwards: when `OPEN` and
`Date.now() - lastFailure > resetTimeoutMs`, the call itself moves the
breaker to `HALF_OPEN`. -/
def canExecute (cfg : CBConfig) (now : ℤ) (s : CBState) : Bool × CBState :=
  match s.mode with
  | CBMode.closed => (true, s)
  | CBMode.open =>
      if now - s.lastFailure > cfg.resetTimeoutMs then
        (true, { s with mode := CBMode.halfOpen })
      else
        (false, s)
  | CBMode.halfOpen => (true, s)

/-- `CircuitBreaker.onSuccess`, embedded from the source: resets the
failure count and unconditionally closes the breaker. -/
def onSuccess (s : CBState) : CBState :=
  { s with failures := 0, mode := CBMode.closed }

/-- `CircuitBreaker.onFailure`, embedded from the source: bumps the
failure count, stamps `lastFailure`, and opens the breaker once the count
reaches the threshold. -/
def onFailure (cfg : CBConfig) (now : ℤ) (s : CBState) : CBState :=
  let s1 := { s with failures := s.failures + 1, lastFailure := now }
  if s1.failures ≥ cfg.failureThreshold then
    { s1 with mode := CBMode.open }
  else
    s1

/-- One step of the breaker, as driven by its three public methods. -/
inductive Step where
  | canExec (now : ℤ)
  | success
  | failure (now : ℤ)
  deriving Repr

/-- Applies one method call to the breaker state. -/
def applyStep (cfg : CBConfig) (s : CBState) : Step → CBState
  | Step.canExec now => (canExecute cfg now s).2
  | Step.success => onSuccess s
  | Step.failure now => onFailure cfg now s

/-- Applies a sequence of method calls, oldest first. -/
def applySteps (cfg : CBConfig) (s : CBState) : List Step → CBState
  | [] => s
  | st :: rest => applySteps cfg (applyStep cfg s st) rest

/-- `getCircuitBreakerStatus`, embedded from the source:
`{ state: getState(), canExecute: canExecute() }`.  Because it calls
`canExecute()`, it returns the breaker state *after* that call. -/
def getCircuitBreakerStatus (cfg : CBConfig) (now : ℤ) (s : CBState) :
    (CBMode × Bool) × CBState :=
  let r := canExecute cfg now s
  ((s.mode, r.1), r.2)

/-- The breaker states reachable from `init` by any sequence of
`canExecute` / `onSuccess` / `onFailure` calls. -/
inductive Reachable (cfg : CBConfig) : CBState → Prop where
  | init : Reachable cfg CircuitBreaker.init
  | step {s : CBState} (h : Reachable cfg s) (st : Step) :
      Reachable cfg (applyStep cfg s st)

/-- The claim's transition invariant at one step: the state is unchanged,
or the change is one of the four listed transitions with its guard
(`CLOSED→OPEN` on a failure once the count reaches the threshold,
`OPEN→HALF_OPEN` on a `canExecute` after the reset timeout elapsed,
`HALF_OPEN→CLOSED` on a success, `HALF_OPEN→OPEN` on a failure). -/
def claimTransitionOk (cfg : CBConfig) (s : CBState) (st : Step) : Prop :=
  let s' := applyStep cfg s st
  s'.mode = s.mode ∨
  (s.mode = CBMode.closed ∧ s'.mode = CBMode.open ∧
    cfg.failureThreshold ≤ s'.failures ∧ ∃ now, st = Step.failure now) ∨
  (s.mode = CBMode.open ∧ s'.mode = CBMode.halfOpen ∧
    ∃ now, st = Step.canExec now ∧ now - s.lastFailure > cfg.resetTimeoutMs) ∨
  (s.mode = CBMode.halfOpen ∧ s'.mode = CBMode.closed ∧ st = Step.success) ∨
  (s.mode = CBMode.halfOpen ∧ s'.mode = CBMode.open ∧ ∃ now, st = Step.failure now)

/-- The breaker state after five failures at time 0 under the main
configuration: five consecutive failures have tripped it `OPEN`. -/
def cbOpen5 : CBState := { failures := 5, lastFailure := 0, mode := CBMode.open }

end CircuitBreaker

/-! ### Error taxonomy and the GraphQL error mapper

Embedded from `src/lib/errors.ts`.  An `AppError` subclass is represented
by its variant tag; the mapper's inputs are the fields it inspects. -/

/-- The fixed taxonomy of `AppError` subclasses. -/
inductive AppErrorKind where
  | validation
  | notFound
  | upstream
  | timeout
  | rateLimit
  | authentication
  | authorization
  | internal
  deriving Repr, DecidableEq

/-- The fields of an Apollo `networkError` that the mapper inspects:
`statusCode` (absent on pure connection errors) and `message`.
`statusCode = none` models the property being absent (`'statusCode' in
networkError` false). -/
structure NetErr where
  statusCode : Option ℤ
  message : String
  deriving Repr, DecidableEq

/-- The fields of a single GraphQL error that the mapper inspects:
`extensions.code` (absent when there are no extensions or no code) and
`message`. -/
structure GQLErr where
  extCode : Option String
  message : String
  deriving Repr, DecidableEq

/-- The shape of an `ApolloError` as consumed by
`GraphQLErrorMapper.mapApolloError`: an optional network error, a list of
GraphQL errors, and a message. -/
structure ApolloErrorShape where
  networkError : Option NetErr
  graphQLErrors : List GQLErr
  message : String
  deriving Repr, DecidableEq

/-- Substring test on strings (JS `String.prototype.includes`), as a
boolean on the underlying character lists. -/
def strIncludes (s pat : String) : Bool :=
  go s.data pat.data
where
  /-- Walks the haystack looking for `pat` as a prefix at each position. -/
  go : List Char → List Char → Bool
    | [], p => p.isEmpty
    | hs@(_ :: rest), p => if p.isPrefixOf hs then true else go rest p

namespace GraphQLErrorMapper

/-- `GraphQLErrorMapper.mapGraphQLError`, embedded from the source: a
switch on `extensions.code` with `UNAUTHENTICATED`, `FORBIDDEN`,
`BAD_USER_INPUT`/`GRAPHQL_VALIDATION_FAILED`, `NOT_FOUND`, and a default
(also covering `INTERNAL_ERROR` and a missing code) of `UpstreamError`. -/
def mapGraphQLError (e : GQLErr) : AppErrorKind :=
  if e.extCode = some "UNAUTHENTICATED" then AppErrorKind.authentication
  else if e.extCode = some "FORBIDDEN" then AppErrorKind.authorization
  else if e.extCode = some "BAD_USER_INPUT" then AppErrorKind.validation
  else if e.extCode = some "GRAPHQL_VALIDATION_FAILED" then AppErrorKind.validation
  else if e.extCode = some "NOT_FOUND" then AppErrorKind.notFound
  else AppErrorKind.upstream

/-- `GraphQLErrorMapper.mapApolloError`, embedded from the source: network
errors first (status-code cases 401/403/404/429/≥500, then the
`message.includes('timeout')` check, then a generic 502 `UpstreamError`),
then the first GraphQL error via `mapGraphQLError`, then a fallback
`InternalError`. -/
def mapApolloError (e : ApolloErrorShape) : AppErrorKind :=
  match e.networkError with
  | some ne =>
      match ne.statusCode with
      | some sc =>
          if sc = 401 then AppErrorKind.authentication
          else if sc = 403 then AppErrorKind.authorization
          else if sc = 404 then AppErrorKind.notFound
          else if sc = 429 then AppErrorKind.rateLimit
          else if sc ≥ 500 then AppErrorKind.upstream
          else if strIncludes ne.message "timeout" then AppErrorKind.timeout
          else AppErrorKind.upstream
      | none =>
          if strIncludes ne.message "timeout" then AppErrorKind.timeout
          else AppErrorKind.upstream
  | none =>
      match e.graphQLErrors with
      | g :: _ => mapGraphQLError g
      | [] => AppErrorKind.internal

end GraphQLErrorMapper

/-! ### MD5 and the cache key builder

`CacheKeyBuilder.hashString` computes
`createHash('md5').update(str).digest('hex').substring(0, 8)`.  MD5 is
embedded executably over `Nat` with explicit `% 2^32` masking.  All strings
fed to it by the key builder are ASCII, so UTF-8 encoding is byte-per-char
(`Char.toNat`). -/

namespace MD5

/-- 2^32, the word modulus. -/
def mask32 : Nat := 4294967296

/-- Bitwise complement within 32 bits. -/
def not32 (x : Nat) : Nat := Nat.xor x 4294967295

/-- 32-bit left rotation. -/
def rotl32 (x n : Nat) : Nat :=
  (Nat.shiftLeft x n % mask32) ||| Nat.shiftRight (x % mask32) (32 - n)

/-- 32-bit addition. -/
def add32 (x y : Nat) : Nat := (x + y) % mask32

/-- The per-round shift amounts. -/
def shiftTable : List Nat :=
  [7, 12, 17, 22, 7, 12, 17, 22, 7, 12, 17, 22, 7, 12, 17, 22,
   5, 9, 14, 20, 5, 9, 14, 20, 5, 9, 14, 20, 5, 9, 14, 20,
   4, 11, 16, 23, 4, 11, 16, 23, 4, 11, 16, 23, 4, 11, 16, 23,
   6, 10, 15, 21, 6, 10, 15, 21, 6, 10, 15, 21, 6, 10, 15, 21]

/-- The sine-derived additive constants. -/
def kTable : List Nat :=
  [0xd76aa478, 0xe8c7b756, 0x242070db, 0xc1bdceee,
   0xf57c0faf, 0x4787c62a, 0xa8304613, 0xfd469501,
   0x698098d8, 0x8b44f7af, 0xffff5bb1, 0x895cd7be,
   0x6b901122, 0xfd987193, 0xa679438e, 0x49b40821,
   0xf61e2562, 0xc040b340, 0x265e5a51, 0xe9b6c7aa,
   0xd62f105d, 0x02441453, 0xd8a1e681, 0xe7d3fbc8,
   0x21e1cde6, 0xc33707d6, 0xf4d50d87, 0x455a14ed,
   0xa9e3e905, 0xfcefa3f8, 0x676f02d9, 0x8d2a4c8a,
   0xfffa3942, 0x8771f681, 0x6d9d6122, 0xfde5380c,
   0xa4beea44, 0x4bdecfa9, 0xf6bb4b60, 0xbebfbc70,
   0x289b7ec6, 0xeaa127fa, 0xd4ef3085, 0x04881d05,
   0xd9d4d039, 0xe6db99e5, 0x1fa27cf8, 0xc4ac5665,
   0xf4292244, 0x432aff97, 0xab9423a7, 0xfc93a039,
   0x655b59c3, 0x8f0ccc92, 0xffeff47d, 0x85845dd1,
   0x6fa87e4f, 0xfe2ce6e0, 0xa3014314, 0x4e0811a1,
   0xf7537e82, 0xbd3af235, 0x2ad7d2bb, 0xeb86d391]

/-- Splits a byte list into chunks of `n`, with explicit fuel so the
definition is structural (fuel `≥ length` always suffices). -/
def chunksAux (n : Nat) : Nat → List Nat → List (List Nat)
  | 0, _ => []
  | _, [] => []
  | fuel + 1, l => l.take n :: chunksAux n fuel (l.drop n)

/-- Splits a byte list into chunks of `n` bytes. -/
def chunks (n : Nat) (l : List Nat) : List (List Nat) :=
  chunksAux n l.length l

/-- Reads a 4-byte little-endian word. -/
def word32OfBytes : List Nat → Nat
  | b0 :: b1 :: b2 :: b3 :: _ => b0 + b1 * 256 + b2 * 65536 + b3 * 16777216
  | b0 :: b1 :: b2 :: [] => b0 + b1 * 256 + b2 * 65536
  | b0 :: b1 :: [] => b0 + b1 * 256
  | b0 :: [] => b0
  | [] => 0

/-- The 16 message words of one 64-byte block. -/
def blockWords (block : List Nat) : List Nat :=
  (chunks 4 block).map word32OfBytes

/-- Encodes a word as 4 little-endian bytes. -/
def bytesOfWord32 (w : Nat) : List Nat :=
  [w % 256, w / 256 % 256, w / 65536 % 256, w / 16777216 % 256]

/-- MD5 padding: a `0x80` byte, zeros to 56 mod 64, then the bit length as
a 64-bit little-endian quantity. -/
def padMessage (msg : List Nat) : List Nat :=
  let len := msg.length
  let padLen := (55 + 64 - len % 64) % 64 + 1
  let bitLen := len * 8
  msg ++ (0x80 :: List.replicate (padLen - 1) 0) ++
    [bitLen % 256, bitLen / 256 % 256, bitLen / 65536 % 256,
     bitLen / 16777216 % 256, bitLen / 4294967296 % 256,
     bitLen / 1099511627776 % 256, bitLen / 281474976710656 % 256,
     bitLen / 72057594037927936 % 256]

/-- One MD5 round step: given the state `(a, b, c, d)`, the block words
and the round index, produces the next state. -/
def roundStep (m : List Nat) (st : Nat × Nat × Nat × Nat) (i : Nat) :
    Nat × Nat × Nat × Nat :=
  let (a, b, c, d) := st
  let f :=
    if i < 16 then (b &&& c) ||| (not32 b &&& d)
    else if i < 32 then (d &&& b) ||| (not32 d &&& c)
    else if i < 48 then Nat.xor (Nat.xor b c) d
    else Nat.xor c (b ||| not32 d)
  let g :=
    if i < 16 then i
    else if i < 32 then (5 * i + 1) % 16
    else if i < 48 then (3 * i + 5) % 16
    else (7 * i) % 16
  let tmp := add32 (add32 (add32 (f % mask32) a) (kTable.getD i 0)) (m.getD g 0)
  (d, add32 b (rotl32 tmp (shiftTable.getD i 7)), b, c)

/-- Processes one 64-byte block. -/
def processBlock (st : Nat × Nat × Nat × Nat) (block : List Nat) :
    Nat × Nat × Nat × Nat :=
  let (a0, b0, c0, d0) := st
  let m := blockWords block
  let r := (List.range 64).foldl (roundStep m) (a0, b0, c0, d0)
  (add32 a0 r.1, add32 b0 r.2.1, add32 c0 r.2.2.1, add32 d0 r.2.2.2)

/-- The MD5 digest of a byte list, as 16 bytes. -/
def digestBytes (msg : List Nat) : List Nat :=
  let padded := padMessage msg
  let st := (chunks 64 padded).foldl processBlock
    (0x67452301, 0xefcdab89, 0x98badcfe, 0x10325476)
  bytesOfWord32 st.1 ++ bytesOfWord32 st.2.1 ++ bytesOfWord32 st.2.2.1 ++
    bytesOfWord32 st.2.2.2

/-- A hex digit character. -/
def hexDigit (n : Nat) : Char :=
  if n < 10 then Char.ofNat (48 + n) else Char.ofNat (87 + n)

/-- The lowercase hex rendering of the digest. -/
def digestHex (msg : List Nat) : List Char :=
  (digestBytes msg).foldr (fun b acc => hexDigit (b / 16) :: hexDigit (b % 16) :: acc) []

end MD5

/-- The bytes of an ASCII string (UTF-8 is byte-per-char on ASCII, which
covers every string the key builder hashes in this development). -/
def strBytes (s : String) : List Nat := s.data.map Char.toNat

namespace CacheKeyBuilder

/-- `CacheKeyBuilder.hashString`, embedded from the source:
`createHash('md5').update(str).digest('hex').substring(0, 8)`. -/
def hashString (s : String) : String :=
  String.mk ((MD5.digestHex (strBytes s)).take 8)

/-- A JS double-quoted JSON key (no escaping needed on the inputs used). -/
def jsQuote (s : String) : String := "\"" ++ s ++ "\""

/-- `JSON.stringify` of an object whose fields appear in the given order,
with the field values rendered by `ser` (the serializer for the value
type; `JSON.stringify` does *not* reorder keys of nested objects). -/
def stringifyPairs {σ : Type} (ser : σ → String) (l : List (String × σ)) : String :=
  "\x7b" ++ String.intercalate "," (l.map fun kv => jsQuote kv.1 ++ ":" ++ ser kv.2) ++ "\x7d"

/-- `Object.keys(obj).sort()`: lexicographic sort of the key list. -/
def sortStrings (l : List String) : List String :=
  l.insertionSort (fun a b => a ≤ b)

/-- `CacheKeyBuilder.hashObject`, embedded from the source: empty objects
map to the literal `"empty"`; otherwise the *top-level* keys are sorted,
the object is rebuilt in that key order (values via lookup, unchanged),
serialized, and hashed.  The parameter object is an association list (a
JS object: keys are distinct), `ser` serializes its values. -/
def hashObject {σ : Type} [Inhabited σ] (ser : σ → String)
    (l : List (String × σ)) : String :=
  if l.isEmpty then "empty"
  else
    hashString (stringifyPairs ser
      ((sortStrings (l.map Prod.fst)).map fun k => (k, (l.lookup k).getD default)))

/-- `CacheKeyBuilder.graphql`. -/
def graphql {σ : Type} [Inhabited σ] (ser : σ → String) (operationName : String)
    (vars : List (String × σ)) : String :=
  "graphql:" ++ operationName ++ ":" ++ hashObject ser vars

/-- `CacheKeyBuilder.page`. -/
def page {σ : Type} [Inhabited σ] (ser : σ → String) (route : String)
    (params query : List (String × σ)) : String :=
  "page:" ++ route ++ ":" ++ hashObject ser params ++ ":" ++ hashObject ser query

/-- `CacheKeyBuilder.category`. -/
def category {σ : Type} [Inhabited σ] (ser : σ → String) (slug : String)
    (filters : List (String × σ)) : String :=
  "category:" ++ slug ++ ":" ++ hashObject ser filters

/-- `CacheKeyBuilder.collection`. -/
def collection {σ : Type} [Inhabited σ] (ser : σ → String) (slug : String)
    (filters : List (String × σ)) : String :=
  "collection:" ++ slug ++ ":" ++ hashObject ser filters

/-- `CacheKeyBuilder.search`. -/
def search {σ : Type} [Inhabited σ] (ser : σ → String) (query : String)
    (filters : List (String × σ)) : String :=
  "search:" ++ hashString query ++ ":" ++ hashObject ser filters

end CacheKeyBuilder

/-! ### Retry link

Embedded from `createRetryLink` in the Apollo client module: the `retryIf`
predicate as written there, and the attempt loop of Apollo's `RetryLink`
(`attempts.max` is the total number of tries of one operation; a failed
try is retried only while the tries made so far are fewer than `max` and
`retryIf` accepts the error). -/

namespace RetryPolicy

/-- The `retryIf` predicate of `createRetryLink`, embedded from the
source.  `error.networkError` present → retry unless
`networkError.statusCode && networkError.statusCode < 500` (JS truthiness:
a present, non-zero status below 500 blocks the retry); no network error
(a GraphQL-level error) → never retry. -/
def retryIf (e : ApolloErrorShape) : Bool :=
  match e.networkError with
  | some ne =>
      match ne.statusCode with
      | some sc => if sc ≠ 0 ∧ sc < 500 then false else true
      | none => true
  | none => false

/-- The attempt loop: `fuel` is the number of retries still allowed
(`max - 1` initially), `idx` the index of the try being made.  A try is
always made; on failure another follows only while fuel remains and
`retryIf` accepts the error.  Returns the number of tries made and the
final outcome. -/
def runAux {α : Type} (outcomes : Nat → Except ApolloErrorShape α) :
    Nat → Nat → Nat × Except ApolloErrorShape α
  | 0, idx => (idx + 1, outcomes idx)
  | fuel + 1, idx =>
      match outcomes idx with
      | Except.ok a => (idx + 1, Except.ok a)
      | Except.error e =>
          if retryIf e then runAux outcomes fuel (idx + 1)
          else (idx + 1, Except.error e)

/-- Runs one operation under `RetryLink` with `attempts.max = maxAttempts`
(`Config.maxRetries`), the `n`-th try producing `outcomes n`.  Returns the
number of tries made and the final outcome. -/
def run {α : Type} (maxAttempts : Nat)
    (outcomes : Nat → Except ApolloErrorShape α) : Nat × Except ApolloErrorShape α :=
  runAux outcomes (maxAttempts - 1) 0

end RetryPolicy

/-! ### `GraphQLClientFactory.executeQuery`

Embedded from the `executeQuery` of the Apollo client module revision that
also guards against a missing `result.data` (the `executeMutation` there is
textually identical up to the operation name).  The awaited `client.query`
either resolves to `{ error?, data? }` or throws; the `catch` block
classifies a thrown value through `GraphQLErrorMapper.mapApolloError` only
when it looks Apollo-shaped (`name === 'ApolloError'`, or it carries a
`graphQLErrors` or `networkError` property — note a present-but-empty
`graphQLErrors` array is truthy in JS) and rethrows it untouched
otherwise. -/

/-- A JS exception value, as inspected by `executeQuery`'s `catch`:
`graphQLErrors = none` models the property being absent, `some []` an
empty (still truthy) array. -/
structure ThrownErr where
  name : String
  graphQLErrors : Option (List GQLErr)
  networkError : Option NetErr
  message : String
  deriving Repr, DecidableEq

/-- The `apolloError` literal `executeQuery` builds before mapping:
`graphQLErrors: e.graphQLErrors || []`, `networkError: e.networkError ||
null`. -/
def ThrownErr.toShape (e : ThrownErr) : ApolloErrorShape :=
  { networkError := e.networkError,
    graphQLErrors := e.graphQLErrors.getD [],
    message := e.message }

/-- The outcome of awaiting `client.query`: a settled result carrying an
optional error and optional data, or a thrown exception. -/
inductive QueryOutcome (δ : Type) where
  | res (error : Option ThrownErr) (data : Option δ)
  | thrown (e : ThrownErr)
  deriving Repr

/-- What `executeQuery` rejects with: an error classified into the
`AppError` taxonomy, or a raw (unclassified) exception. -/
inductive Rejection where
  | classified (kind : AppErrorKind)
  | raw (name message : String)
  deriving Repr, DecidableEq

namespace GraphQLClientFactory

/-- `GraphQLClientFactory.executeQuery`, embedded from the source.
`result.error` present → an `AppError` from the mapper is thrown (the
`catch` rethrows it untouched, since an `AppError` is not Apollo-shaped);
no error but no data → `new Error('No data returned from GraphQL query')`
is thrown and the `catch` rethrows it raw; a thrown Apollo-shaped value is
classified; any other thrown value is rethrown raw. -/
def executeQuery {δ : Type} (outcome : QueryOutcome δ) : Except Rejection δ :=
  match outcome with
  | QueryOutcome.res err data =>
      match err with
      | some e =>
          Except.error (Rejection.classified (GraphQLErrorMapper.mapApolloError e.toShape))
      | none =>
          match data with
          | some d => Except.ok d
          | none => Except.error (Rejection.raw "Error" "No data returned from GraphQL query")
  | QueryOutcome.thrown e =>
      if e.name = "ApolloError" ∨ e.graphQLErrors.isSome ∨ e.networkError.isSome then
        Except.error (Rejection.classified (GraphQLErrorMapper.mapApolloError e.toShape))
      else
        Except.error (Rejection.raw e.name e.message)

end GraphQLClientFactory

/-! ### The spec's error-classification table

Two definitions follow the *claim's words*, not the source, for the
refinement comparison with `GraphQLErrorMapper.mapApolloError`. -/

/-- The network status of an error shape, when a network error with a
status is present. -/
def netStatus (e : ApolloErrorShape) : Option ℤ :=
  e.networkError.bind NetErr.statusCode

/-- The `extensions.code` of the error shape's (first) GraphQL error. -/
def gqlCode (e : ApolloErrorShape) : Option String :=
  match e.graphQLErrors with
  | g :: _ => g.extCode
  | [] => none

/-- Whether an optional status is present and at least `n`. -/
def statusAtLeast (o : Option ℤ) (n : ℤ) : Bool :=
  match o with
  | some sc => decide (n ≤ sc)
  | none => false

/-- Whether a network error is present and its message contains
"timeout". -/
def netMsgTimeout (o : Option NetErr) : Bool :=
  match o with
  | some ne => strIncludes ne.message "timeout"
  | none => false

/-- The claim's mapping table, read row by row, first matching row wins:
network 401 or GraphQL `UNAUTHENTICATED` → Authentication; network 403 or
GraphQL `FORBIDDEN` → Authorization; network 404 → NotFound; network 429 →
RateLimit; network status ≥ 500 → Upstream; a network error whose message
contains "timeout" → Timeout; GraphQL `BAD_USER_INPUT` or validation codes
→ Validation; any other GraphQL error → Upstream; anything unrecognized →
Internal. -/
def specMappingTable (e : ApolloErrorShape) : AppErrorKind :=
  if netStatus e = some 401 ∨ gqlCode e = some "UNAUTHENTICATED" then AppErrorKind.authentication
  else if netStatus e = some 403 ∨ gqlCode e = some "FORBIDDEN" then AppErrorKind.authorization
  else if netStatus e = some 404 then AppErrorKind.notFound
  else if netStatus e = some 429 then AppErrorKind.rateLimit
  else if statusAtLeast (netStatus e) 500 then AppErrorKind.upstream
  else if netMsgTimeout e.networkError then AppErrorKind.timeout
  else if gqlCode e = some "BAD_USER_INPUT" ∨ gqlCode e = some "GRAPHQL_VALIDATION_FAILED" then
    AppErrorKind.validation
  else if ¬ e.graphQLErrors.isEmpty then AppErrorKind.upstream
  else AppErrorKind.internal

/-- The amended mapping table: network-error conditions are decided before
any GraphQL condition (matching the mapper's precedence); a GraphQL
`NOT_FOUND` code maps to NotFound; a network error matching none of the
status/timeout rows maps to Upstream; Internal is reached only when
neither a network error nor a GraphQL error is present. -/
def specMappingTableAmended (e : ApolloErrorShape) : AppErrorKind :=
  match e.networkError with
  | some ne =>
      if ne.statusCode = some 401 then AppErrorKind.authentication
      else if ne.statusCode = some 403 then AppErrorKind.authorization
      else if ne.statusCode = some 404 then AppErrorKind.notFound
      else if ne.statusCode = some 429 then AppErrorKind.rateLimit
      else if statusAtLeast ne.statusCode 500 then AppErrorKind.upstream
      else if strIncludes ne.message "timeout" then AppErrorKind.timeout
      else AppErrorKind.upstream
  | none =>
      if gqlCode e = some "UNAUTHENTICATED" then AppErrorKind.authentication
      else if gqlCode e = some "FORBIDDEN" then AppErrorKind.authorization
      else if gqlCode e = some "BAD_USER_INPUT" ∨ gqlCode e = some "GRAPHQL_VALIDATION_FAILED" then
        AppErrorKind.validation
      else if gqlCode e = some "NOT_FOUND" then AppErrorKind.notFound
      else if ¬ e.graphQLErrors.isEmpty then AppErrorKind.upstream
      else AppErrorKind.internal

/-! ## Association-list lemmas shared by the cache theorems -/

theorem lookup_eraseKey_self {α : Type} (key : String)
    (l : List (String × CacheEntry α)) : (eraseKey key l).lookup key = none := by
  induction l with
  | nil => rfl
  | cons kv rest ih =>
      obtain ⟨k, e⟩ := kv
      by_cases hk : k = key
      · simpa [eraseKey, hk] using ih
      · have h2 : (key == k) = false := by
          simp [Ne.symm hk]
        simpa [eraseKey, hk, List.lookup, h2] using ih

theorem lookup_eraseKey_ne {α : Type} {key k : String} (hk : k ≠ key)
    (l : List (String × CacheEntry α)) :
    (eraseKey key l).lookup k = l.lookup k := by
  induction l with
  | nil => rfl
  | cons kv rest ih =>
      obtain ⟨k', e⟩ := kv
      by_cases hk' : k' = key
      · have h2 : (k == k') = false := by
          simp [hk' ▸ hk]
        have h2b : (k == key) = false := by simp [hk]
        simp [eraseKey, hk', List.lookup, h2, h2b, ih]
      · by_cases hkk : k = k'
        · simp [eraseKey, hk', List.lookup, hkk]
        · have h3 : (k == k') = false := by simp [hkk]
          simp [eraseKey, hk', List.lookup, h3, ih]

theorem lookup_insertKey_self {α : Type} (key : String) (e : CacheEntry α)
    (l : List (String × CacheEntry α)) :
    (insertKey key e l).lookup key = some e := by
  simp [insertKey, List.lookup]

theorem lookup_insertKey_ne {α : Type} {key k : String} (hk : k ≠ key)
    (e : CacheEntry α) (l : List (String × CacheEntry α)) :
    (insertKey key e l).lookup k = l.lookup k := by
  have h1 : (k == key) = false := by simp [hk]
  simp [insertKey, List.lookup, h1, lookup_eraseKey_ne hk]

/-! ## C7: TTL expiry in `get` and `has` -/

/-- C7.  For every cached entry, once `now` exceeds the entry's creation
time by more than `ttl * 1000` milliseconds, `AppCache.get` returns
absent, deletes the stale entry and counts a miss, and `AppCache.has`
returns false with the same check; before that moment `get` returns the
stored value and counts a hit, and `has` returns true. -/
theorem appCache_get_ttl_expiry {α : Type} (s : CacheState α) (key : String)
    (now : ℤ) (e : CacheEntry α) (hl : s.entries.lookup key = some e) :
    (now - e.createdAt > e.ttl * 1000 →
      AppCache.get now key s =
        (none, { s with entries := eraseKey key s.entries, misses := s.misses + 1 }) ∧
      ((AppCache.get now key s).2.entries.lookup key = none) ∧
      (AppCache.has now key s).1 = false) ∧
    (¬ now - e.createdAt > e.ttl * 1000 →
      AppCache.get now key s =
        (e.data, { s with entries := insertKey key { e with hits := e.hits + 1 } s.entries,
                          hits := s.hits + 1 }) ∧
      (AppCache.has now key s).1 = true) := by
  constructor
  · intro h
    have hexp : entryExpired now e = true := by
      simpa [entryExpired] using h
    refine ⟨?_, ?_, ?_⟩
    · simp [AppCache.get, hl, hexp]
    · simp [AppCache.get, hl, hexp, lookup_eraseKey_self]
    · simp [AppCache.has, hl, hexp]
  · intro h
    have hexp : entryExpired now e = false := by
      simpa [entryExpired] using h
    constructor
    · simp [AppCache.get, hl, hexp]
    · simp [AppCache.has, hl, hexp]

/-- Witness for C7 at a concrete expired entry (`ttl` 1 s, read 2 s after
creation) and a concrete live entry (read at 500 ms). -/
theorem appCache_get_ttl_expiry_witness :
    (AppCache.get (2000 : ℤ) "k"
        { entries := [("k", { data := some (7 : ℤ), createdAt := 0, ttl := 1, hits := 0 })],
          hits := 0, misses := 0, sets := 0, deletes := 0 } =
      (none, { entries := [], hits := 0, misses := 1, sets := 0, deletes := 0 }) ∧
      (AppCache.get (2000 : ℤ) "k"
        { entries := [("k", { data := some (7 : ℤ), createdAt := 0, ttl := 1, hits := 0 })],
          hits := 0, misses := 0, sets := 0, deletes := 0 }).2.entries.lookup "k" = none ∧
      (AppCache.has (2000 : ℤ) "k"
        { entries := [("k", { data := some (7 : ℤ), createdAt := 0, ttl := 1, hits := 0 })],
          hits := 0, misses := 0, sets := 0, deletes := 0 }).1 = false) ∧
    (AppCache.get (500 : ℤ) "k"
        { entries := [("k", { data := some (7 : ℤ), createdAt := 0, ttl := 1, hits := 0 })],
          hits := 0, misses := 0, sets := 0, deletes := 0 } =
      (some 7, { entries := [("k", { data := some (7 : ℤ), createdAt := 0, ttl := 1, hits := 1 })],
                 hits := 1, misses := 0, sets := 0, deletes := 0 }) ∧
      (AppCache.has (500 : ℤ) "k"
        { entries := [("k", { data := some (7 : ℤ), createdAt := 0, ttl := 1, hits := 0 })],
          hits := 0, misses := 0, sets := 0, deletes := 0 }).1 = true) := by
  constructor
  · have h := (appCache_get_ttl_expiry
      { entries := [("k", { data := some (7 : ℤ), createdAt := 0, ttl := 1, hits := 0 })],
        hits := 0, misses := 0, sets := 0, deletes := 0 } "k" 2000
      { data := some (7 : ℤ), createdAt := 0, ttl := 1, hits := 0 } (by decide)).1
      (by norm_num)
    simpa [eraseKey] using h
  · have h := (appCache_get_ttl_expiry
      { entries := [("k", { data := some (7 : ℤ), createdAt := 0, ttl := 1, hits := 0 })],
        hits := 0, misses := 0, sets := 0, deletes := 0 } "k" 500
      { data := some (7 : ℤ), createdAt := 0, ttl := 1, hits := 0 } (by decide)).2
      (by norm_num)
    simpa [insertKey, eraseKey] using h

/-! ## C8: `set` and the supplied TTL -/

/-- C8 counterexample.  `set(key, value, 0)` with the stock default TTL of
300 s stores an entry whose TTL is 300, not the supplied 0: the source
computes `ttlSeconds || Config.cacheTtl`, and `0` is falsy in JS, so an
explicitly supplied TTL of `0` silently falls back to the default.  The
claim says the stored TTL equals the supplied argument whenever one is
supplied. -/
theorem appCache_set_zero_ttl_counterexample :
    ((AppCache.set (300 : ℤ) 0 "k" (some (1 : ℤ)) (some 0)
        (CacheState.empty ℤ)).entries.lookup "k").map CacheEntry.ttl = some 300 ∧
    ((AppCache.set (300 : ℤ) 0 "k" (some (1 : ℤ)) (some 0)
        (CacheState.empty ℤ)).entries.lookup "k").map CacheEntry.ttl ≠ some 0 := by
  constructor
  · rfl
  · simp [AppCache.set, CacheState.empty, insertKey, eraseKey, List.lookup]

/-- C8 (amended).  For every key, value and explicitly supplied *nonzero*
`ttlSeconds`, `set` stores an entry whose TTL is exactly the supplied
value (a supplied `0`, being falsy, falls back to the process-wide default
just as an omitted argument does), overwrites any existing entry under the
key while leaving every other key untouched, and increments the `sets`
counter by one. -/
theorem appCache_set_ttl_rule {α : Type} (defaultTtl now : ℤ) (key : String)
    (v : Option α) (t : ℤ) (s : CacheState α) (ht : t ≠ 0) :
    (AppCache.set defaultTtl now key v (some t) s).entries.lookup key =
      some { data := v, createdAt := now, ttl := t, hits := 0 } ∧
    (∀ k, k ≠ key →
      (AppCache.set defaultTtl now key v (some t) s).entries.lookup k =
        s.entries.lookup k) ∧
    (AppCache.set defaultTtl now key v (some t) s).sets = s.sets + 1 ∧
    (AppCache.set defaultTtl now key v none s).entries.lookup key =
      some { data := v, createdAt := now, ttl := defaultTtl, hits := 0 } := by
  refine ⟨?_, ?_, rfl, ?_⟩
  · simp [AppCache.set, ht, lookup_insertKey_self]
  · intro k hk
    simp [AppCache.set, ht, lookup_insertKey_ne hk]
  · simp [AppCache.set, lookup_insertKey_self]

/-- Witness for C8 (amended): storing under `"k"` with TTL 7 over an
existing entry, in a cache that also holds `"j"`. -/
theorem appCache_set_ttl_rule_witness :
    (AppCache.set (300 : ℤ) 50 "k" (some (2 : ℤ)) (some 7)
        { entries := [("k", { data := some 1, createdAt := 0, ttl := 9, hits := 3 }),
                      ("j", { data := some 5, createdAt := 0, ttl := 9, hits := 0 })],
          hits := 0, misses := 0, sets := 4, deletes := 0 }).entries.lookup "k" =
      some { data := some 2, createdAt := 50, ttl := 7, hits := 0 } ∧
    (AppCache.set (300 : ℤ) 50 "k" (some (2 : ℤ)) (some 7)
        { entries := [("k", { data := some 1, createdAt := 0, ttl := 9, hits := 3 }),
                      ("j", { data := some 5, createdAt := 0, ttl := 9, hits := 0 })],
          hits := 0, misses := 0, sets := 4, deletes := 0 }).entries.lookup "j" =
      some { data := some 5, createdAt := 0, ttl := 9, hits := 0 } ∧
    (AppCache.set (300 : ℤ) 50 "k" (some (2 : ℤ)) (some 7)
        { entries := [("k", { data := some 1, createdAt := 0, ttl := 9, hits := 3 }),
                      ("j", { data := some 5, createdAt := 0, ttl := 9, hits := 0 })],
          hits := 0, misses := 0, sets := 4, deletes := 0 }).sets = 5 := by
  have h := appCache_set_ttl_rule (α := ℤ) 300 50 "k" (some 2) 7
    { entries := [("k", { data := some 1, createdAt := 0, ttl := 9, hits := 3 }),
                  ("j", { data := some 5, createdAt := 0, ttl := 9, hits := 0 })],
      hits := 0, misses := 0, sets := 4, deletes := 0 } (by norm_num)
  exact ⟨h.1, by simpa using h.2.1 "j" (by decide), h.2.2.1⟩

/-! ## C10: a stored `undefined` is never effectively cached -/

/-- C10.  A live entry whose stored value is `undefined` behaves like an
absent value: `get` returns `undefined` while still counting a hit on the
physically present entry, and `getOrSet` treats the entry as a miss and
invokes the factory.  (Such an entry arises from `set(key, undefined)` or
from a `getOrSet` whose factory resolved to `undefined`, as the witness
shows.) -/
theorem appCache_undefined_value_uncached {α ε : Type} (s : CacheState α)
    (key : String) (now : ℤ) (e : CacheEntry α)
    (hl : s.entries.lookup key = some e) (hdata : e.data = none)
    (hlive : ¬ now - e.createdAt > e.ttl * 1000) :
    (AppCache.get now key s).1 = none ∧
    (AppCache.get now key s).2.hits = s.hits + 1 ∧
    (∀ (defaultTtl nowSet : ℤ) (factory : Except ε (Option α)) (ttl : Option ℤ),
      (AppCache.getOrSet defaultTtl now nowSet key factory ttl s).invoked = true) := by
  have hexp : entryExpired now e = false := by
    simpa [entryExpired] using hlive
  refine ⟨?_, ?_, ?_⟩
  · simp [AppCache.get, hl, hexp, hdata]
  · simp [AppCache.get, hl, hexp]
  · intro defaultTtl nowSet factory ttl
    have hget : (AppCache.get now key s).1 = none := by
      simp [AppCache.get, hl, hexp, hdata]
    cases factory <;> simp [AppCache.getOrSet, hget]

/-- Witness for C10: the state produced by `set("k", undefined)` on an
empty cache, read 5 ms later; the factory of the subsequent `getOrSet` is
invoked. -/
theorem appCache_undefined_value_uncached_witness :
    (AppCache.get (5 : ℤ) "k"
        (AppCache.set (300 : ℤ) 0 "k" (none : Option ℤ) none (CacheState.empty ℤ))).1 =
      none ∧
    (AppCache.get (5 : ℤ) "k"
        (AppCache.set (300 : ℤ) 0 "k" (none : Option ℤ) none (CacheState.empty ℤ))).2.hits = 1 ∧
    (AppCache.getOrSet (300 : ℤ) 5 6 "k" (Except.ok (some (3 : ℤ)) : Except String (Option ℤ))
        none
        (AppCache.set (300 : ℤ) 0 "k" (none : Option ℤ) none (CacheState.empty ℤ))).invoked =
      true := by
  have h := appCache_undefined_value_uncached (ε := String)
    (AppCache.set (300 : ℤ) 0 "k" (none : Option ℤ) none (CacheState.empty ℤ)) "k" 5
    { data := none, createdAt := 0, ttl := 300, hits := 0 } (by decide) rfl (by norm_num)
  exact ⟨h.1, h.2.1, h.2.2 300 6 (Except.ok (some 3)) none⟩

/-! ## C1: the `getOrSet` contract -/

theorem appCache_get_of_noLiveEntry {α : Type} {now : ℤ} {key : String}
    {s : CacheState α} (h : AppCache.noLiveEntry now key s) :
    (AppCache.get now key s).1 = none ∧
    (AppCache.get now key s).2.entries.lookup key = none := by
  rcases h with h | ⟨e, hl, hexp⟩
  · constructor
    · simp [AppCache.get, h]
    · simp [AppCache.get, h]
  · have hexp' : entryExpired now e = true := by
      simpa [entryExpired] using hexp
    constructor
    · simp [AppCache.get, hl, hexp']
    · simp [AppCache.get, hl, hexp', lookup_eraseKey_self]

theorem appCache_get_fst_of_lookup_none {α : Type} {g : ℤ} {key : String}
    {st : CacheState α} (h : st.entries.lookup key = none) :
    (AppCache.get g key st).1 = none := by
  simp [AppCache.get, h]

theorem appCache_getOrSet_invoked_of_get_none {α ε : Type} {d g s2 : ℤ}
    {key : String} {f : Except ε (Option α)} {t : Option ℤ} {st : CacheState α}
    (h : (AppCache.get g key st).1 = none) :
    (AppCache.getOrSet d g s2 key f t st).invoked = true := by
  cases f <;> simp [AppCache.getOrSet, h]

/-- C1 counterexample.  A cache holding a *live* entry for `"k"` (as
`has` confirms) whose stored value is `undefined`: `getOrSet` nonetheless
invokes its factory, because the hit test is `cached !== undefined`.  The
claim states that whenever a live entry exists the factory is not
invoked. -/
theorem appCache_getOrSet_counterexample :
    (AppCache.has (0 : ℤ) "k"
        { entries := [("k", { data := (none : Option ℤ), createdAt := 0, ttl := 100, hits := 0 })],
          hits := 0, misses := 0, sets := 0, deletes := 0 }).1 = true ∧
    (AppCache.getOrSet (300 : ℤ) 0 0 "k"
        (Except.ok (some (42 : ℤ)) : Except String (Option ℤ)) none
        { entries := [("k", { data := (none : Option ℤ), createdAt := 0, ttl := 100, hits := 0 })],
          hits := 0, misses := 0, sets := 0, deletes := 0 }).invoked = true := by
  constructor
  · decide
  · decide

/-- C1 (amended).  (a) If a live entry with a *defined* value exists,
`getOrSet` returns it without invoking the factory.  (b) If no live entry
exists and the factory resolves, the factory is invoked, its value is
returned, and the final state is exactly a `set` (same TTL rule) on the
post-`get` state.  (c) If no live entry exists and the factory rejects,
the rejection propagates, the factory was invoked, `has` is false
afterwards at every probe time, and a subsequent `getOrSet` invokes its
factory again. -/
theorem appCache_getOrSet_contract {α ε : Type} (defaultTtl nowGet nowSet : ℤ)
    (key : String) (s : CacheState α) :
    (∀ (e : CacheEntry α) (v : α) (factory : Except ε (Option α)) (ttl : Option ℤ),
      s.entries.lookup key = some e → ¬ nowGet - e.createdAt > e.ttl * 1000 →
      e.data = some v →
      (AppCache.getOrSet defaultTtl nowGet nowSet key factory ttl s).invoked = false ∧
      (AppCache.getOrSet defaultTtl nowGet nowSet key factory ttl s).result =
        Except.ok (some v)) ∧
    (∀ (v : Option α) (ttl : Option ℤ), AppCache.noLiveEntry nowGet key s →
      (AppCache.getOrSet defaultTtl nowGet nowSet key
          (Except.ok v : Except ε (Option α)) ttl s).invoked = true ∧
      (AppCache.getOrSet defaultTtl nowGet nowSet key
          (Except.ok v : Except ε (Option α)) ttl s).result = Except.ok v ∧
      (AppCache.getOrSet defaultTtl nowGet nowSet key
          (Except.ok v : Except ε (Option α)) ttl s).state =
        AppCache.set defaultTtl nowSet key v ttl (AppCache.get nowGet key s).2) ∧
    (∀ (err : ε) (ttl : Option ℤ), AppCache.noLiveEntry nowGet key s →
      (AppCache.getOrSet defaultTtl nowGet nowSet key (Except.error err) ttl s).invoked = true ∧
      (AppCache.getOrSet defaultTtl nowGet nowSet key (Except.error err) ttl s).result =
        Except.error err ∧
      (∀ t : ℤ,
        (AppCache.has t key
          (AppCache.getOrSet defaultTtl nowGet nowSet key (Except.error err) ttl s).state).1 =
          false) ∧
      (∀ (d2 g2 s2 : ℤ) (f2 : Except ε (Option α)) (t2 : Option ℤ),
        (AppCache.getOrSet d2 g2 s2 key f2 t2
          (AppCache.getOrSet defaultTtl nowGet nowSet key (Except.error err) ttl s).state).invoked =
          true)) := by
  refine ⟨?_, ?_, ?_⟩
  · intro e v factory ttl hl hlive hdata
    have hexp : entryExpired nowGet e = false := by
      simpa [entryExpired] using hlive
    have hget : (AppCache.get nowGet key s).1 = some v := by
      simp [AppCache.get, hl, hexp, hdata]
    constructor <;> simp [AppCache.getOrSet, hget]
  · intro v ttl h
    obtain ⟨hget, _⟩ := appCache_get_of_noLiveEntry h
    refine ⟨?_, ?_, ?_⟩ <;> simp [AppCache.getOrSet, hget]
  · intro err ttl h
    obtain ⟨hget, hlook⟩ := appCache_get_of_noLiveEntry h
    have hstate : (AppCache.getOrSet defaultTtl nowGet nowSet key
        (Except.error err : Except ε (Option α)) ttl s).state = (AppCache.get nowGet key s).2 := by
      simp [AppCache.getOrSet, hget]
    refine ⟨?_, ?_, ?_, ?_⟩
    · simp [AppCache.getOrSet, hget]
    · simp [AppCache.getOrSet, hget]
    · intro t
      rw [hstate]
      simp [AppCache.has, hlook]
    · intro d2 g2 s2 f2 t2
      rw [hstate]
      exact appCache_getOrSet_invoked_of_get_none (appCache_get_fst_of_lookup_none hlook)

/-- Witness for C1 (amended): a concrete hit on a live defined entry, a
concrete miss with a resolving factory, and a concrete miss with a
rejecting factory. -/
theorem appCache_getOrSet_contract_witness :
    ((AppCache.getOrSet (300 : ℤ) 10 11 "k"
        (Except.ok (some (9 : ℤ)) : Except String (Option ℤ)) none
        { entries := [("k", { data := some (1 : ℤ), createdAt := 0, ttl := 60, hits := 0 })],
          hits := 0, misses := 0, sets := 0, deletes := 0 }).invoked = false ∧
     (AppCache.getOrSet (300 : ℤ) 10 11 "k"
        (Except.ok (some (9 : ℤ)) : Except String (Option ℤ)) none
        { entries := [("k", { data := some (1 : ℤ), createdAt := 0, ttl := 60, hits := 0 })],
          hits := 0, misses := 0, sets := 0, deletes := 0 }).result = Except.ok (some 1)) ∧
    ((AppCache.getOrSet (300 : ℤ) 10 11 "k"
        (Except.ok (some (9 : ℤ)) : Except String (Option ℤ)) (some 44)
        (CacheState.empty ℤ)).invoked = true ∧
     (AppCache.getOrSet (300 : ℤ) 10 11 "k"
        (Except.ok (some (9 : ℤ)) : Except String (Option ℤ)) (some 44)
        (CacheState.empty ℤ)).result = Except.ok (some 9) ∧
     (AppCache.getOrSet (300 : ℤ) 10 11 "k"
        (Except.ok (some (9 : ℤ)) : Except String (Option ℤ)) (some 44)
        (CacheState.empty ℤ)).state =
       AppCache.set (300 : ℤ) 11 "k" (some 9) (some 44)
         (AppCache.get (10 : ℤ) "k" (CacheState.empty ℤ)).2) ∧
    ((AppCache.getOrSet (300 : ℤ) 10 11 "k"
        (Except.error "boom" : Except String (Option ℤ)) none
        (CacheState.empty ℤ)).result = Except.error "boom" ∧
     (AppCache.has (99 : ℤ) "k"
        (AppCache.getOrSet (300 : ℤ) 10 11 "k"
          (Except.error "boom" : Except String (Option ℤ)) none
          (CacheState.empty ℤ)).state).1 = false ∧
     (AppCache.getOrSet (300 : ℤ) 12 13 "k"
        (Except.error "boom2" : Except String (Option ℤ)) none
        (AppCache.getOrSet (300 : ℤ) 10 11 "k"
          (Except.error "boom" : Except String (Option ℤ)) none
          (CacheState.empty ℤ)).state).invoked = true) := by
  have h := appCache_getOrSet_contract (α := ℤ) (ε := String) 300 10 11 "k"
    { entries := [("k", { data := some (1 : ℤ), createdAt := 0, ttl := 60, hits := 0 })],
      hits := 0, misses := 0, sets := 0, deletes := 0 }
  have hempty := appCache_getOrSet_contract (α := ℤ) (ε := String) 300 10 11 "k"
    (CacheState.empty ℤ)
  have hnl : AppCache.noLiveEntry (10 : ℤ) "k" (CacheState.empty ℤ) := Or.inl rfl
  refine ⟨?_, ?_, ?_⟩
  · exact h.1 { data := some (1 : ℤ), createdAt := 0, ttl := 60, hits := 0 } 1
      (Except.ok (some 9)) none (by decide) (by norm_num) rfl
  · exact hempty.2.1 (some 9) (some 44) hnl
  · obtain ⟨_, hr, hhas, hnext⟩ := hempty.2.2 "boom" none hnl
    exact ⟨hr, hhas 99, hnext 300 12 13 (Except.error "boom2") none⟩

/-! ## C2: the circuit breaker's transition invariant -/

theorem reachable_applySteps (cfg : CBConfig) {s : CBState}
    (h : CircuitBreaker.Reachable cfg s) :
    ∀ l : List CircuitBreaker.Step,
      CircuitBreaker.Reachable cfg (CircuitBreaker.applySteps cfg s l)
  | [] => h
  | st :: rest => reachable_applySteps cfg (CircuitBreaker.Reachable.step h st) rest

/-- C2 counterexample.  Five failures from the initial state reach the
`OPEN` state `cbOpen5`; a success step there moves the breaker straight to
`CLOSED`, an `OPEN→CLOSED` change that is none of the four transitions the
claim allows (`onSuccess` closes the breaker unconditionally). -/
theorem circuitBreaker_transition_counterexample :
    CircuitBreaker.Reachable CircuitBreaker.cfgMain CircuitBreaker.cbOpen5 ∧
    CircuitBreaker.cbOpen5.mode = CBMode.open ∧
    (CircuitBreaker.applyStep CircuitBreaker.cfgMain CircuitBreaker.cbOpen5
      CircuitBreaker.Step.success).mode = CBMode.closed ∧
    ¬ CircuitBreaker.claimTransitionOk CircuitBreaker.cfgMain CircuitBreaker.cbOpen5
      CircuitBreaker.Step.success := by
  refine ⟨?_, rfl, rfl, ?_⟩
  · have h := reachable_applySteps CircuitBreaker.cfgMain
      CircuitBreaker.Reachable.init
      (List.replicate 5 (CircuitBreaker.Step.failure 0))
    have he : CircuitBreaker.applySteps CircuitBreaker.cfgMain CircuitBreaker.init
        (List.replicate 5 (CircuitBreaker.Step.failure 0)) = CircuitBreaker.cbOpen5 := by
      decide
    rwa [he] at h
  · intro h
    simp [CircuitBreaker.claimTransitionOk, CircuitBreaker.applyStep,
      CircuitBreaker.onSuccess, CircuitBreaker.cbOpen5] at h

/-- C2 (amended).  Every step of the breaker either leaves the state
unchanged or performs one of: `CLOSED→OPEN` on a failure once the failure
count has reached the threshold, `OPEN→HALF_OPEN` on a `canExecute` probe
after the reset timeout elapsed, `HALF_OPEN→CLOSED` on a success,
`HALF_OPEN→OPEN` on a failure that keeps the count at the threshold, or —
the transition the original claim omits — `OPEN→CLOSED` on a success
(`onSuccess` closes unconditionally).  A call blocked while `OPEN` (a
`canExecute` returning false) changes nothing at all. -/
theorem circuitBreaker_transitions :
    (∀ (cfg : CBConfig) (s : CBState) (st : CircuitBreaker.Step),
      (CircuitBreaker.applyStep cfg s st).mode = s.mode ∨
      (s.mode = CBMode.closed ∧ (CircuitBreaker.applyStep cfg s st).mode = CBMode.open ∧
        cfg.failureThreshold ≤ (CircuitBreaker.applyStep cfg s st).failures ∧
        ∃ now, st = CircuitBreaker.Step.failure now) ∨
      (s.mode = CBMode.open ∧ (CircuitBreaker.applyStep cfg s st).mode = CBMode.halfOpen ∧
        ∃ now, st = CircuitBreaker.Step.canExec now ∧
          now - s.lastFailure > cfg.resetTimeoutMs) ∨
      (s.mode = CBMode.halfOpen ∧ (CircuitBreaker.applyStep cfg s st).mode = CBMode.closed ∧
        st = CircuitBreaker.Step.success) ∨
      (s.mode = CBMode.halfOpen ∧ (CircuitBreaker.applyStep cfg s st).mode = CBMode.open ∧
        cfg.failureThreshold ≤ (CircuitBreaker.applyStep cfg s st).failures ∧
        ∃ now, st = CircuitBreaker.Step.failure now) ∨
      (s.mode = CBMode.open ∧ (CircuitBreaker.applyStep cfg s st).mode = CBMode.closed ∧
        st = CircuitBreaker.Step.success)) ∧
    (∀ (cfg : CBConfig) (now : ℤ) (s : CBState),
      (CircuitBreaker.canExecute cfg now s).1 = false →
      (CircuitBreaker.canExecute cfg now s).2 = s) := by
  constructor
  · intro cfg s st
    cases st with
    | canExec now =>
        cases hm : s.mode with
        | closed =>
            left
            simp [CircuitBreaker.applyStep, CircuitBreaker.canExecute, hm]
        | «open» =>
            by_cases hel : now - s.lastFailure > cfg.resetTimeoutMs
            · right; right; left
              exact ⟨rfl, by simp [CircuitBreaker.applyStep, CircuitBreaker.canExecute, hm, hel],
                now, rfl, hel⟩
            · left
              simp [CircuitBreaker.applyStep, CircuitBreaker.canExecute, hm, hel]
        | halfOpen =>
            left
            simp [CircuitBreaker.applyStep, CircuitBreaker.canExecute, hm]
    | success =>
        cases hm : s.mode with
        | closed =>
            left
            simp [CircuitBreaker.applyStep, CircuitBreaker.onSuccess, hm]
        | «open» =>
            right; right; right; right; right
            exact ⟨rfl, by simp [CircuitBreaker.applyStep, CircuitBreaker.onSuccess], rfl⟩
        | halfOpen =>
            right; right; right; left
            exact ⟨rfl, by simp [CircuitBreaker.applyStep, CircuitBreaker.onSuccess], rfl⟩
    | failure now =>
        by_cases hth : cfg.failureThreshold ≤ s.failures + 1
        · cases hm : s.mode with
          | closed =>
              right; left
              refine ⟨rfl, ?_, ?_, now, rfl⟩ <;>
                simp [CircuitBreaker.applyStep, CircuitBreaker.onFailure, hth]
          | «open» =>
              left
              simp [CircuitBreaker.applyStep, CircuitBreaker.onFailure, hth, hm]
          | halfOpen =>
              right; right; right; right; left
              refine ⟨rfl, ?_, ?_, now, rfl⟩ <;>
                simp [CircuitBreaker.applyStep, CircuitBreaker.onFailure, hth]
        · left
          simp [CircuitBreaker.applyStep, CircuitBreaker.onFailure, hth]
  · intro cfg now s h
    cases hm : s.mode with
    | closed => simp [CircuitBreaker.canExecute, hm] at h
    | «open» =>
        by_cases hel : now - s.lastFailure > cfg.resetTimeoutMs
        · simp [CircuitBreaker.canExecute, hm, hel] at h
        · simp [CircuitBreaker.canExecute, hm, hel]
    | halfOpen => simp [CircuitBreaker.canExecute, hm] at h

/-- Witness for C2 (amended): a concrete blocked call (`OPEN`, reset
timeout not yet elapsed) leaves the breaker state untouched. -/
theorem circuitBreaker_transitions_witness :
    (CircuitBreaker.canExecute CircuitBreaker.cfgMain 100 CircuitBreaker.cbOpen5).2 =
      CircuitBreaker.cbOpen5 :=
  circuitBreaker_transitions.2 CircuitBreaker.cfgMain 100 CircuitBreaker.cbOpen5 (by decide)

/-! ## C9: `getCircuitBreakerStatus` is not read-only -/

/-- C9 counterexample.  `getCircuitBreakerStatus` calls `canExecute()`,
which mutates the breaker: probing the reachable `OPEN` state `cbOpen5`
after the 60 s reset timeout has elapsed flips it to `HALF_OPEN`, so the
state after the status call differs from the state before it. -/
theorem getCircuitBreakerStatus_counterexample :
    CircuitBreaker.Reachable CircuitBreaker.cfgMain CircuitBreaker.cbOpen5 ∧
    CircuitBreaker.cbOpen5.mode = CBMode.open ∧
    (CircuitBreaker.getCircuitBreakerStatus CircuitBreaker.cfgMain 70000
      CircuitBreaker.cbOpen5).2.mode = CBMode.halfOpen ∧
    (CircuitBreaker.getCircuitBreakerStatus CircuitBreaker.cfgMain 70000
      CircuitBreaker.cbOpen5).2 ≠ CircuitBreaker.cbOpen5 := by
  refine ⟨?_, rfl, by decide, by decide⟩
  have h := reachable_applySteps CircuitBreaker.cfgMain
    CircuitBreaker.Reachable.init
    (List.replicate 5 (CircuitBreaker.Step.failure 0))
  have he : CircuitBreaker.applySteps CircuitBreaker.cfgMain CircuitBreaker.init
      (List.replicate 5 (CircuitBreaker.Step.failure 0)) = CircuitBreaker.cbOpen5 := by
    decide
  rwa [he] at h

/-- C9 (amended).  `getCircuitBreakerStatus` reports the pre-call state
and never touches the failure count or the last-failure timestamp, but it
is not read-only: when the breaker is `OPEN` and the reset timeout has
elapsed, the embedded `canExecute()` call flips the state to `HALF_OPEN`;
in every other situation the state is unchanged. -/
theorem getCircuitBreakerStatus_effect (cfg : CBConfig) (now : ℤ) (s : CBState) :
    (CircuitBreaker.getCircuitBreakerStatus cfg now s).1.1 = s.mode ∧
    (CircuitBreaker.getCircuitBreakerStatus cfg now s).2.failures = s.failures ∧
    (CircuitBreaker.getCircuitBreakerStatus cfg now s).2.lastFailure = s.lastFailure ∧
    ((CircuitBreaker.getCircuitBreakerStatus cfg now s).2.mode = s.mode ∨
      (s.mode = CBMode.open ∧ now - s.lastFailure > cfg.resetTimeoutMs ∧
        (CircuitBreaker.getCircuitBreakerStatus cfg now s).2.mode = CBMode.halfOpen)) := by
  refine ⟨rfl, ?_, ?_, ?_⟩ <;>
    cases hm : s.mode <;>
      simp [CircuitBreaker.getCircuitBreakerStatus, CircuitBreaker.canExecute, hm] <;>
        by_cases hel : now - s.lastFailure > cfg.resetTimeoutMs <;>
          simp [hel, hm]

/-! ## C5: the error-classification mapping -/

/-- C5 counterexample.  A GraphQL error with `extensions.code =
'NOT_FOUND'` is not in the claim's table, so the claim's "any other
GraphQL error → Upstream" row applies to it — but the mapper sends it to
NotFound (`mapGraphQLError` has an explicit `NOT_FOUND` case). -/
theorem errorMapper_notFound_counterexample :
    GraphQLErrorMapper.mapApolloError
      { networkError := none,
        graphQLErrors := [{ extCode := some "NOT_FOUND", message := "nf" }],
        message := "nf" } = AppErrorKind.notFound ∧
    specMappingTable
      { networkError := none,
        graphQLErrors := [{ extCode := some "NOT_FOUND", message := "nf" }],
        message := "nf" } = AppErrorKind.upstream ∧
    GraphQLErrorMapper.mapApolloError
      { networkError := none,
        graphQLErrors := [{ extCode := some "NOT_FOUND", message := "nf" }],
        message := "nf" } ≠
      specMappingTable
        { networkError := none,
          graphQLErrors := [{ extCode := some "NOT_FOUND", message := "nf" }],
          message := "nf" } := by
  refine ⟨by decide, by decide, by decide⟩

/-- C5 (amended).  The mapper realizes the claim's table with two
corrections: network-error rows are decided before any GraphQL row (the
mapper never looks at GraphQL errors when a network error is present), a
GraphQL `NOT_FOUND` code maps to NotFound, a network error matching no
status/timeout row maps to Upstream, and Internal is reserved for inputs
carrying neither a network nor a GraphQL error. -/
theorem errorMapper_matches_amended_table (e : ApolloErrorShape) :
    GraphQLErrorMapper.mapApolloError e = specMappingTableAmended e := by
  obtain ⟨ne, gqls, msg⟩ := e
  cases ne with
  | some ne0 =>
      obtain ⟨sc, nmsg⟩ := ne0
      cases sc with
      | some sc0 =>
          simp only [GraphQLErrorMapper.mapApolloError, specMappingTableAmended,
            statusAtLeast, Option.some.injEq, ge_iff_le, decide_eq_true_eq]
      | none =>
          simp [GraphQLErrorMapper.mapApolloError, specMappingTableAmended, statusAtLeast]
  | none =>
      cases gqls with
      | nil =>
          simp [GraphQLErrorMapper.mapApolloError, specMappingTableAmended, gqlCode]
      | cons g rest =>
          simp only [GraphQLErrorMapper.mapApolloError, specMappingTableAmended,
            GraphQLErrorMapper.mapGraphQLError, gqlCode]
          split_ifs <;> simp_all

/-! ## C6: the retry predicate and the attempt bound -/

theorem retry_runAux_le {α : Type} (outcomes : Nat → Except ApolloErrorShape α) :
    ∀ (fuel idx : Nat), (RetryPolicy.runAux outcomes fuel idx).1 ≤ idx + fuel + 1 := by
  intro fuel
  induction fuel with
  | zero =>
      intro idx
      simp [RetryPolicy.runAux]
  | succ fuel ih =>
      intro idx
      cases houtcome : outcomes idx with
      | ok a =>
          simp only [RetryPolicy.runAux, houtcome]
          omega
      | error e =>
          by_cases hr : RetryPolicy.retryIf e = true
          · have h := ih (idx + 1)
            simp only [RetryPolicy.runAux, houtcome, hr, if_true]
            omega
          · simp only [Bool.not_eq_true] at hr
            simp only [RetryPolicy.runAux, houtcome, hr, Bool.false_eq_true, if_false]
            omega

/-- C6.  The retry predicate accepts exactly the network-level failures:
for any error whose HTTP status (when present) is a real status (≥ 100),
`retryIf` is true iff a network error is present and it either carries no
status or a status ≥ 500; it is false for every GraphQL-level error (no
network error) and for every network error with a 4xx status; and the
number of tries `RetryLink` makes is bounded by the configured
`attempts.max` (`Config.maxRetries`). -/
theorem retryLink_policy :
    (∀ e : ApolloErrorShape,
      (∀ ne, e.networkError = some ne → ∀ sc, ne.statusCode = some sc → 100 ≤ sc) →
      (RetryPolicy.retryIf e = true ↔
        ∃ ne, e.networkError = some ne ∧
          (ne.statusCode = none ∨ ∃ sc, ne.statusCode = some sc ∧ 500 ≤ sc))) ∧
    (∀ e : ApolloErrorShape, e.networkError = none → RetryPolicy.retryIf e = false) ∧
    (∀ (e : ApolloErrorShape) (ne : NetErr) (sc : ℤ),
      e.networkError = some ne → ne.statusCode = some sc → 400 ≤ sc → sc < 500 →
      RetryPolicy.retryIf e = false) ∧
    (∀ (maxAttempts : Nat) (outcomes : Nat → Except ApolloErrorShape Unit),
      1 ≤ maxAttempts → (RetryPolicy.run maxAttempts outcomes).1 ≤ maxAttempts) := by
  refine ⟨?_, ?_, ?_, ?_⟩
  · intro e hval
    obtain ⟨ne, gqls, msg⟩ := e
    cases ne with
    | none => simp [RetryPolicy.retryIf]
    | some ne0 =>
        obtain ⟨sc, nmsg⟩ := ne0
        cases sc with
        | none => simp [RetryPolicy.retryIf]
        | some sc0 =>
            have h100 : 100 ≤ sc0 := hval _ rfl sc0 rfl
            by_cases h5 : sc0 < 500
            · have hz : sc0 ≠ 0 := by omega
              simp only [RetryPolicy.retryIf, hz, h5, and_self, if_true, ne_eq,
                not_false_iff, true_and, if_pos]
              constructor
              · intro h
                exact absurd h (by simp)
              · rintro ⟨ne, hne, h | ⟨sc, hsc, h⟩⟩
                · cases hne
                  simp at h
                · cases hne
                  cases hsc
                  omega
            · simp only [RetryPolicy.retryIf]
              have : ¬ (sc0 ≠ 0 ∧ sc0 < 500) := by omega
              simp only [this, if_false]
              constructor
              · intro _
                exact ⟨_, rfl, Or.inr ⟨sc0, rfl, by omega⟩⟩
              · intro _
                trivial
  · intro e h
    obtain ⟨ne, gqls, msg⟩ := e
    cases h
    simp [RetryPolicy.retryIf]
  · intro e ne sc hne hsc h4 h5
    obtain ⟨ne', gqls, msg⟩ := e
    cases hne
    obtain ⟨sc', nmsg⟩ := ne
    cases hsc
    have : sc ≠ 0 := by omega
    simp [RetryPolicy.retryIf, this, h5]
  · intro maxAttempts outcomes hmax
    have h := retry_runAux_le outcomes (maxAttempts - 1) 0
    simp only [RetryPolicy.run]
    omega

/-- Witness for C6: a 503 network failure is retried, a 400 network
failure and a GraphQL-level error are not, and two attempts never exceed
`attempts.max = 2`. -/
theorem retryLink_policy_witness :
    RetryPolicy.retryIf
      { networkError := some { statusCode := some 503, message := "bad gateway" },
        graphQLErrors := [], message := "m" } = true ∧
    RetryPolicy.retryIf
      { networkError := some { statusCode := some 400, message := "bad request" },
        graphQLErrors := [], message := "m" } = false ∧
    RetryPolicy.retryIf
      { networkError := none,
        graphQLErrors := [{ extCode := some "BAD_USER_INPUT", message := "v" }],
        message := "m" } = false ∧
    (RetryPolicy.run 2 (fun _ =>
      Except.error { networkError := some { statusCode := some 503, message := "boom" },
                     graphQLErrors := [], message := "m" } :
        Nat → Except ApolloErrorShape Unit)).1 ≤ 2 := by
  refine ⟨?_, ?_, ?_, ?_⟩
  · exact (retryLink_policy.1
      { networkError := some { statusCode := some 503, message := "bad gateway" },
        graphQLErrors := [], message := "m" }
      (by intro ne hne sc hsc; cases hne; cases hsc; norm_num)).2
      ⟨{ statusCode := some 503, message := "bad gateway" }, rfl,
        Or.inr ⟨503, rfl, by norm_num⟩⟩
  · exact retryLink_policy.2.2.1
      { networkError := some { statusCode := some 400, message := "bad request" },
        graphQLErrors := [], message := "m" }
      { statusCode := some 400, message := "bad request" } 400 rfl rfl
      (by norm_num) (by norm_num)
  · exact retryLink_policy.2.1
      { networkError := none,
        graphQLErrors := [{ extCode := some "BAD_USER_INPUT", message := "v" }],
        message := "m" } rfl
  · exact retryLink_policy.2.2.2 2 _ (by norm_num)

/-! ## C3: `executeQuery` rejection classification -/

/-- C3 counterexample.  A `client.query` that settles with no error but
also no data makes `executeQuery` throw `new Error('No data returned from
GraphQL query')`; the `catch` block does not recognize it as
Apollo-shaped and rethrows it raw, so the promise rejects with a plain
`Error`, not a classified `AppError`. -/
theorem executeQuery_rawError_counterexample :
    GraphQLClientFactory.executeQuery (δ := Unit) (QueryOutcome.res none none) =
      Except.error (Rejection.raw "Error" "No data returned from GraphQL query") := rfl

/-- C3 (amended).  `executeQuery` resolves only for a settled result with
no reported error and present data; every rejection arising from a
reported remote error, or from a thrown Apollo-shaped value
(`name === 'ApolloError'`, or carrying a `graphQLErrors`/`networkError`
property), is classified through the error mapper — but the internally
thrown "No data returned" `Error` escapes unclassified, which is what
keeps the original claim from holding on every failure path. -/
theorem executeQuery_classified {δ : Type} :
    (∀ (outcome : QueryOutcome δ) (d : δ),
      GraphQLClientFactory.executeQuery outcome = Except.ok d →
      outcome = QueryOutcome.res none (some d)) ∧
    (∀ (e : ThrownErr) (data : Option δ),
      GraphQLClientFactory.executeQuery (QueryOutcome.res (some e) data) =
        Except.error (Rejection.classified (GraphQLErrorMapper.mapApolloError e.toShape))) ∧
    (∀ e : ThrownErr,
      e.name = "ApolloError" ∨ e.graphQLErrors.isSome ∨ e.networkError.isSome →
      GraphQLClientFactory.executeQuery (δ := δ) (QueryOutcome.thrown e) =
        Except.error (Rejection.classified (GraphQLErrorMapper.mapApolloError e.toShape))) := by
  refine ⟨?_, ?_, ?_⟩
  · intro outcome d h
    cases outcome with
    | res err data =>
        cases err with
        | some e => simp [GraphQLClientFactory.executeQuery] at h
        | none =>
            cases data with
            | some d0 =>
                simp only [GraphQLClientFactory.executeQuery, Except.ok.injEq] at h
                rw [h]
            | none => simp [GraphQLClientFactory.executeQuery] at h
    | thrown e =>
        by_cases hc : e.name = "ApolloError" ∨ e.graphQLErrors.isSome ∨ e.networkError.isSome
        · simp [GraphQLClientFactory.executeQuery, hc] at h
        · simp [GraphQLClientFactory.executeQuery, hc] at h
  · intro e data
    rfl
  · intro e hc
    simp [GraphQLClientFactory.executeQuery, hc]

/-- Witness for C3 (amended): a resolution forces the no-error/with-data
shape; a result carrying a GraphQL error rejects with the classified
Upstream error; a thrown `ApolloError` with a 401 network error rejects
with the classified Authentication error. -/
theorem executeQuery_classified_witness :
    QueryOutcome.res (δ := Unit) none (some ()) = QueryOutcome.res none (some ()) ∧
    GraphQLClientFactory.executeQuery (δ := Unit)
      (QueryOutcome.res
        (some { name := "ApolloError",
                graphQLErrors := some [{ extCode := none, message := "boom" }],
                networkError := none, message := "boom" })
        (some ())) =
      Except.error (Rejection.classified AppErrorKind.upstream) ∧
    GraphQLClientFactory.executeQuery (δ := Unit)
      (QueryOutcome.thrown
        { name := "ApolloError", graphQLErrors := none,
          networkError := some { statusCode := some 401, message := "unauthorized" },
          message := "boom" }) =
      Except.error (Rejection.classified AppErrorKind.authentication) := by
  refine ⟨?_, ?_, ?_⟩
  · exact (executeQuery_classified (δ := Unit)).1 (QueryOutcome.res none (some ())) () rfl
  · have h := (executeQuery_classified (δ := Unit)).2.1
      { name := "ApolloError",
        graphQLErrors := some [{ extCode := none, message := "boom" }],
        networkError := none, message := "boom" } (some ())
    simpa [ThrownErr.toShape, GraphQLErrorMapper.mapApolloError,
      GraphQLErrorMapper.mapGraphQLError] using h
  · have h := (executeQuery_classified (δ := Unit)).2.2
      { name := "ApolloError", graphQLErrors := none,
        networkError := some { statusCode := some 401, message := "unauthorized" },
        message := "boom" } (Or.inl rfl)
    simpa [ThrownErr.toShape, GraphQLErrorMapper.mapApolloError] using h

/-! ## C4: cache-key stability -/

theorem pair_lookup_eq_some_of_mem {σ : Type} :
    ∀ {l : List (String × σ)}, (l.map Prod.fst).Nodup →
      ∀ {k : String} {v : σ}, (k, v) ∈ l → l.lookup k = some v := by
  intro l
  induction l with
  | nil => intro _ k v h; cases h
  | cons kv rest ih =>
      intro nd k v h
      obtain ⟨k0, v0⟩ := kv
      rcases List.mem_cons.mp h with heq | hmem
      · obtain ⟨rfl, rfl⟩ := Prod.mk.injEq .. ▸ heq
        simp [List.lookup]
      · by_cases hk : k = k0
        · subst hk
          exfalso
          have : k ∈ rest.map Prod.fst :=
            List.mem_map.mpr ⟨(k, v), hmem, rfl⟩
          simp at nd
          exact nd.1 v (by simpa using hmem)
        · have hb : (k == k0) = false := by simp [hk]
          simp only [List.lookup, hb]
          exact ih (by simpa using (List.nodup_cons.mp (by simpa using nd)).2) hmem

theorem pair_lookup_eq_none {σ : Type} :
    ∀ {l : List (String × σ)} {k : String}, k ∉ l.map Prod.fst → l.lookup k = none := by
  intro l
  induction l with
  | nil => intro k _; rfl
  | cons kv rest ih =>
      intro k h
      obtain ⟨k0, v0⟩ := kv
      have hk : k ≠ k0 := by
        intro hkeq
        exact h (by simp [hkeq])
      have hb : (k == k0) = false := by simp [hk]
      simp only [List.lookup, hb]
      exact ih (fun hmem => h (by simp [hmem]))

theorem pair_mem_of_lookup_eq_some {σ : Type} :
    ∀ {l : List (String × σ)} {k : String} {v : σ},
      l.lookup k = some v → (k, v) ∈ l := by
  intro l
  induction l with
  | nil => intro k v h; cases h
  | cons kv rest ih =>
      intro k v h
      obtain ⟨k0, v0⟩ := kv
      by_cases hk : k = k0
      · subst hk
        have hb : (k == k) = true := beq_self_eq_true k
        simp only [List.lookup, hb] at h
        obtain rfl := Option.some_inj.mp h
        exact List.mem_cons_self ..
      · have hb : (k == k0) = false := by simp [hk]
        simp only [List.lookup, hb] at h
        exact List.mem_cons_of_mem _ (ih h)

theorem pair_lookup_eq_of_perm {σ : Type} {l1 l2 : List (String × σ)}
    (h : l1.Perm l2) (nd : (l1.map Prod.fst).Nodup) (k : String) :
    l1.lookup k = l2.lookup k := by
  have nd2 : (l2.map Prod.fst).Nodup := ((h.map Prod.fst).nodup_iff).mp nd
  cases h1 : l1.lookup k with
  | some v =>
      exact (pair_lookup_eq_some_of_mem nd2 (h.subset (pair_mem_of_lookup_eq_some h1))).symm
  | none =>
      have hk : k ∉ l1.map Prod.fst := by
        intro hmem
        obtain ⟨⟨k', v⟩, hm, hfst⟩ := List.mem_map.mp hmem
        cases hfst
        rw [pair_lookup_eq_some_of_mem nd hm] at h1
        cases h1
      have hk2 : k ∉ l2.map Prod.fst := fun hmem =>
        hk (((h.map Prod.fst).mem_iff).mpr hmem)
      exact (pair_lookup_eq_none hk2).symm

/-- `hashObject` is stable under top-level key reordering: the key list is
sorted before serialization, and values are recovered by lookup. -/
theorem cacheKey_hashObject_stability {σ : Type} [Inhabited σ] (ser : σ → String)
    {l1 l2 : List (String × σ)} (h : l1.Perm l2)
    (nd : (l1.map Prod.fst).Nodup) :
    CacheKeyBuilder.hashObject ser l1 = CacheKeyBuilder.hashObject ser l2 := by
  have hkeys : (l1.map Prod.fst).Perm (l2.map Prod.fst) := h.map Prod.fst
  have hsort : CacheKeyBuilder.sortStrings (l1.map Prod.fst) =
      CacheKeyBuilder.sortStrings (l2.map Prod.fst) := by
    unfold CacheKeyBuilder.sortStrings
    exact List.eq_of_perm_of_sorted
      ((List.perm_insertionSort _ _).trans
        (hkeys.trans (List.perm_insertionSort _ _).symm))
      (List.sorted_insertionSort _ _) (List.sorted_insertionSort _ _)
  have hfun : (fun k : String => (k, (l1.lookup k).getD default)) =
      (fun k : String => (k, (l2.lookup k).getD default)) :=
    funext fun k => by rw [pair_lookup_eq_of_perm h nd k]
  have hempty : l1.isEmpty = l2.isEmpty := by
    have := h.length_eq
    cases l1 <;> cases l2 <;> simp_all
  unfold CacheKeyBuilder.hashObject
  rw [hsort, hfun, hempty]

set_option maxRecDepth 100000 in
/-- C4 counterexample.  The two parameter objects
`{a: {x: 1, y: 2}}` and `{a: {y: 2, x: 1}}` are deep-equal (their single
nested object holds the same key-value pairs, merely inserted in a
different order), yet `CacheKeyBuilder.graphql` derives different keys:
`hashObject` sorts only the *top-level* keys, and `JSON.stringify`
serializes nested objects in insertion order, so the serialized forms —
and hence the truncated MD5 hashes — differ. -/
theorem cacheKeyBuilder_nested_order_counterexample :
    ([("x", (1 : ℤ)), ("y", 2)]).Perm [("y", (2 : ℤ)), ("x", 1)] ∧
    CacheKeyBuilder.graphql (CacheKeyBuilder.stringifyPairs (fun n : ℤ => toString n)) "op"
        [("a", [("x", (1 : ℤ)), ("y", 2)])] ≠
      CacheKeyBuilder.graphql (CacheKeyBuilder.stringifyPairs (fun n : ℤ => toString n)) "op"
        [("a", [("y", (2 : ℤ)), ("x", 1)])] := by
  constructor
  · decide
  · decide

/-- C4 (amended).  For parameter objects that are equal up to *top-level*
key insertion order (a permutation of the same key-value pairs, nested
values identical), every `CacheKeyBuilder` method produces identical
keys; reordering keys of *nested* objects is not canonicalized and can
change the key, as the counterexample shows. -/
theorem cacheKeyBuilder_key_stability {σ : Type} [Inhabited σ] (ser : σ → String)
    (l1 l2 m1 m2 : List (String × σ)) (hl : l1.Perm l2)
    (hnd : (l1.map Prod.fst).Nodup) (hm : m1.Perm m2)
    (hmnd : (m1.map Prod.fst).Nodup) :
    (∀ op, CacheKeyBuilder.graphql ser op l1 = CacheKeyBuilder.graphql ser op l2) ∧
    (∀ route, CacheKeyBuilder.page ser route l1 m1 = CacheKeyBuilder.page ser route l2 m2) ∧
    (∀ slug, CacheKeyBuilder.category ser slug l1 = CacheKeyBuilder.category ser slug l2) ∧
    (∀ slug, CacheKeyBuilder.collection ser slug l1 = CacheKeyBuilder.collection ser slug l2) ∧
    (∀ q, CacheKeyBuilder.search ser q l1 = CacheKeyBuilder.search ser q l2) := by
  have h1 := cacheKey_hashObject_stability ser hl hnd
  have h2 := cacheKey_hashObject_stability ser hm hmnd
  refine ⟨?_, ?_, ?_, ?_, ?_⟩ <;> intro x <;>
    simp [CacheKeyBuilder.graphql, CacheKeyBuilder.page, CacheKeyBuilder.category,
      CacheKeyBuilder.collection, CacheKeyBuilder.search, h1, h2]

/-- Witness for C4 (amended): two top-level orderings of `{a: 1, b: 2}`
produce the same `graphql` key. -/
theorem cacheKeyBuilder_key_stability_witness :
    CacheKeyBuilder.graphql (fun n : ℤ => toString n) "op"
        [("b", (2 : ℤ)), ("a", 1)] =
      CacheKeyBuilder.graphql (fun n : ℤ => toString n) "op"
        [("a", (1 : ℤ)), ("b", 2)] :=
  (cacheKeyBuilder_key_stability (fun n : ℤ => toString n)
    [("b", (2 : ℤ)), ("a", 1)] [("a", (1 : ℤ)), ("b", 2)] [] [] (by decide)
    (by decide) (List.Perm.refl []) (by decide)).1 "op"

end Helix
